import Mathlib

/-!
Verification of the CLI Query Supervisor of the ThunderClaude repository
(`src-tauri/src/claude.rs` and `src-tauri/src/lib.rs`), as a shallow
embedding in Lean 4.

The embedding mirrors the Rust source:
* `QueryConfig` is the deserialized query configuration (claude.rs:13-39).
* `findClaudeBinary` / `findGeminiBinary` are the binary locators
  (claude.rs:49-176 and claude.rs:185-248), parameterized over an abstract
  read-only filesystem `FS` and the host OS (the Rust source compiles one
  `cfg(target_os)` branch per platform; here the platform is a parameter).
* `buildCommand` is the command-construction section of `run_query`
  (claude.rs:252-356): argument vector, stdin delivery mode, working dir.
* `Registry` models the `ProcessRegistry` hash map (claude.rs:11); process
  handles are abstracted as `Nat` tokens.  `cancelQuery` is lib.rs:139-151,
  `supervisorFinish` is the final removal in `run_query` (claude.rs:444-453).
* `stdoutRelaySid` is the stdout relay's session-id fold (claude.rs:396-423),
  with the serde-JSON boundary abstracted as `extract : String → Option
  String` (the composite of `serde_json::from_str`, `.get("session_id")` and
  `.as_str()`: `some s` when the line parses as JSON carrying a string
  `session_id` field with value `s`).
* `rawExitCode` / `reconcileExit` are the exit-code reconciliation
  (claude.rs:455-463); `superviseTraces` is the set of post-registration
  event traces, reflecting that the supervisor awaits only the stdout
  relay before emitting the terminal `done` event (claude.rs:442, 465-473)
  while the stderr relay task is never joined (claude.rs:428).
* `runQuerySpawn` / `sendQuery` model the spawn step and the fire-and-forget
  submission command (claude.rs:369-371, 389 and lib.rs:109-137).
-/

namespace ThunderClaude

/-! ### Character-list string helpers

`String.trim` / `String.endsWith` / `str::contains` are modelled on the
character list (`String.data`) so that all definitions kernel-reduce.
`isBlankLine` models Rust `line.trim().is_empty()` (true iff every character
is whitespace); `strEndsWith` models `str::ends_with`; `listStarts` /
`listHasInfix` model `str::starts_with` / `str::contains`. -/

def isBlankLine (l : String) : Bool :=
  l.data.all (·.isWhitespace)

def listStarts [BEq α] : List α → List α → Bool
  | _, [] => true
  | [], _ :: _ => false
  | a :: l, b :: m => a == b && listStarts l m

def listHasInfix [BEq α] (l sub : List α) : Bool :=
  match l with
  | [] => sub.isEmpty
  | _ :: t => listStarts l sub || listHasInfix t sub

def strContains (s pat : String) : Bool :=
  listHasInfix s.data pat.data

def strStartsWith (s pat : String) : Bool :=
  listStarts s.data pat.data

def strEndsWith (s pat : String) : Bool :=
  listStarts s.data.reverse pat.data.reverse

/-! ### Data model (claude.rs:13-39) -/

/-- Rust `QueryConfig` (claude.rs:13-39), field for field.  `engine` is the raw
optional string of the Rust struct ("claude" or "gemini" per its doc
comment); `maxTurns` is the `u32` bound as a `Nat`. -/
structure QueryConfig where
  message : String
  model : Option String := none
  mcpConfig : Option String := none
  systemPrompt : Option String := none
  sessionId : Option String := none
  resume : Bool := false
  engine : Option String := none
  maxTurns : Option Nat := none
  tools : Option String := none
  strictMcp : Bool := false
  permissionMode : Option String := none
  cwd : Option String := none
deriving Repr, DecidableEq

/-- Rust `config.engine.as_deref().unwrap_or("claude")` (claude.rs:252). -/
def engineName (cfg : QueryConfig) : String :=
  cfg.engine.getD "claude"

/-- Rust `let is_gemini = engine == "gemini"` (claude.rs:253). -/
def isGeminiEngine (cfg : QueryConfig) : Bool :=
  engineName cfg == "gemini"

/-! ### Command builder (claude.rs:261-356) -/

/-- The concrete command assembled by `run_query` before spawning: program,
full argument vector, whether stdin is opened piped (claude.rs:349,354;
otherwise it is `Stdio::null()`), and the child working directory
(claude.rs:343-345). -/
structure BuiltCommand where
  program : String
  args : List String
  pipeStdin : Bool
  cwd : Option String
deriving Repr, DecidableEq

/-- The `.cmd` wrapper indirection (claude.rs:261-275): a `.cmd` binary is
run as `cmd.exe /c <binary> <preArgs...>`, anything else directly. -/
def wrapProgram (binary : String) (preArgs : List String) : String × List String :=
  if strEndsWith binary ".cmd" then ("cmd.exe", "/c" :: binary :: preArgs)
  else (binary, preArgs)

/-- Gemini's message assembly (claude.rs:280-284): the system prompt, when
present, is prepended to the user message as a bracketed block. -/
def geminiFullMessage (cfg : QueryConfig) : String :=
  match cfg.systemPrompt with
  | some sp => "[System Instructions]\n" ++ sp ++ "\n\n[User Message]\n" ++ cfg.message
  | none => cfg.message

/-- The gemini resume segment (claude.rs:293-297): the resume flag with the
session id, only when a session id is present and the resume boolean is set. -/
def geminiResumeArgs (cfg : QueryConfig) : List String :=
  match cfg.sessionId with
  | some sid => if cfg.resume then ["--resume", sid] else []
  | none => []

/-- The gemini-branch flag arguments (claude.rs:286-297), in source order. -/
def geminiFlagArgs (cfg : QueryConfig) : List String :=
  ["--prompt", geminiFullMessage cfg, "--output-format", "stream-json", "--yolo"]
  ++ (match cfg.model with | some m => ["--model", m] | none => [])
  ++ geminiResumeArgs cfg

/-- The message-length threshold for positional delivery (claude.rs:337):
Rust `config.message.len()` is the UTF-8 byte length. -/
def messageLen (cfg : QueryConfig) : Nat :=
  cfg.message.utf8ByteSize

/-- The claude flag arguments before the resume segment (claude.rs:300-328),
in source order. -/
def claudePreResumeArgs (cfg : QueryConfig) : List String :=
  ["-p", "--verbose", "--output-format", "stream-json"]
  ++ (match cfg.model with | some m => ["--model", m] | none => [])
  ++ (match cfg.mcpConfig with | some m => ["--mcp-config", m] | none => [])
  ++ (match cfg.systemPrompt with | some p => ["--system-prompt", p] | none => [])
  ++ (match cfg.maxTurns with | some t => ["--max-turns", toString t] | none => [])
  ++ (match cfg.tools with | some t => ["--tools", t] | none => [])
  ++ (if cfg.strictMcp then ["--strict-mcp-config"] else [])
  ++ (match cfg.permissionMode with | some m => ["--permission-mode", m] | none => [])

/-- The claude resume segment (claude.rs:329-333): the short resume flag
with the session id, only when a session id is present and the resume
boolean is set. -/
def claudeResumeArgs (cfg : QueryConfig) : List String :=
  match cfg.sessionId with
  | some sid => if cfg.resume then ["-r", sid] else []
  | none => []

/-- The claude-branch flag arguments except the trailing positional message
(claude.rs:300-333), in source order. -/
def claudeFlagArgsCore (cfg : QueryConfig) : List String :=
  claudePreResumeArgs cfg ++ claudeResumeArgs cfg

/-- The full claude-branch argument list (claude.rs:300-339): the message is
appended as the last positional argument only when its byte length is at
most 6000. -/
def claudeFlagArgs (cfg : QueryConfig) : List String :=
  claudeFlagArgsCore cfg ++ (if messageLen cfg ≤ 6000 then [cfg.message] else [])

/-- Rust `let pipe_stdin = !is_gemini && config.message.len() > 6000`
(claude.rs:349). -/
def pipeStdinFor (cfg : QueryConfig) : Bool :=
  !isGeminiEngine cfg && decide (messageLen cfg > 6000)

/-- The claude-branch built command (claude.rs:255-259, 298-356); the claude
locator returns a plain binary with no pre-args. -/
def buildClaude (cfg : QueryConfig) (binary : String) : BuiltCommand :=
  let pw := wrapProgram binary []
  { program := pw.1
    args := pw.2 ++ claudeFlagArgs cfg
    pipeStdin := decide (messageLen cfg > 6000)
    cwd := cfg.cwd }

/-- The gemini-branch built command (claude.rs:255-256, 277-297, 342-356);
`binary` is the locator's (executable, pre-args) pair.  `pipe_stdin` is
always false on this branch (claude.rs:349). -/
def buildGemini (cfg : QueryConfig) (binary : String × List String) : BuiltCommand :=
  let pw := wrapProgram binary.1 binary.2
  { program := pw.1
    args := pw.2 ++ geminiFlagArgs cfg
    pipeStdin := false
    cwd := cfg.cwd }

/-- The engine dispatch of `run_query` (claude.rs:252-259): the command is
built by the gemini branch exactly when the engine string is `"gemini"`,
and by the claude branch otherwise; no validation or rejection occurs. -/
def buildCommand (cfg : QueryConfig) (claudeBin : String)
    (geminiBin : String × List String) : BuiltCommand :=
  if isGeminiEngine cfg then buildGemini cfg geminiBin else buildClaude cfg claudeBin

/-- The supervisor's stdin delivery (claude.rs:374-383): when stdin is
piped, exactly the message's UTF-8 bytes are written and the handle is then
dropped, which closes the stream; otherwise nothing is written. -/
def stdinWrites (cfg : QueryConfig) (bc : BuiltCommand) : Option String :=
  if bc.pipeStdin then some cfg.message else none

/-! ### Binary locator (claude.rs:42-248)

The Rust source compiles one `cfg(target_os = ...)` block per platform;
here the platform is the explicit parameter `HostOS`.  The filesystem and
environment are abstracted as a read-only `FS`: `pathExists p` models
`Path::new(p).exists()`, `readDir d` models `fs::read_dir(d)` (the list of
entry file names, `none` on error).  The locator only reads `FS`; it builds
no process and cannot fail. -/

inductive HostOS where
  | windows
  | macos
  | linux
deriving Repr, DecidableEq

structure FS where
  pathExists : String → Bool
  readDir : String → Option (List String)

/-- One entry of the VS-Code-extension scan (e.g. claude.rs:136-148 for
Linux): an entry whose name starts with the extension prefix and contains
the platform marker is probed at `<dir>/<name>/<binRel>`; an existing probe
overwrites `best`, anything else leaves it. -/
def vscodeStep (fs : FS) (extDir marker binRel sep : String)
    (best : Option String) (name : String) : Option String :=
  if strStartsWith name "anthropic.claude-code-" && strContains name marker then
    if fs.pathExists (extDir ++ sep ++ name ++ binRel) then
      some (extDir ++ sep ++ name ++ binRel)
    else best
  else best

/-- The VS-Code-extension scan shared by all three platforms
(e.g. claude.rs:134-152 for Linux): iterate the extension directory's
entries; the last existing probe wins. -/
def vscodeScan (fs : FS) (extDir : String) (marker : String) (binRel : String)
    (sep : String) : Option String :=
  match fs.readDir extDir with
  | none => none
  | some entries =>
    entries.foldl (vscodeStep fs extDir marker binRel sep) none

/-- Model of `find_claude_binary` (claude.rs:49-176). -/
def findClaudeBinary (os : HostOS) (home : String) (fs : FS) : String :=
  match os with
  | .windows =>
    match vscodeScan fs (home ++ "\\.vscode\\extensions") "win32"
        "\\resources\\native-binary\\claude.exe" "\\" with
    | some bin => bin
    | none =>
      let npmPath := home ++ "\\AppData\\Roaming\\npm\\claude.cmd"
      if fs.pathExists npmPath then npmPath
      else "claude"
  | .macos =>
    match vscodeScan fs (home ++ "/.vscode/extensions") "darwin"
        "/resources/native-binary/claude" "/" with
    | some bin => bin
    | none =>
      let standalone := home ++ "/.claude/local/claude"
      if fs.pathExists standalone then standalone
      else if fs.pathExists "/opt/homebrew/bin/claude" then "/opt/homebrew/bin/claude"
      else if fs.pathExists "/usr/local/bin/claude" then "/usr/local/bin/claude"
      else
        let npmPath := home ++ "/.npm-global/bin/claude"
        if fs.pathExists npmPath then npmPath
        else "claude"
  | .linux =>
    match vscodeScan fs (home ++ "/.vscode/extensions") "linux"
        "/resources/native-binary/claude" "/" with
    | some bin => bin
    | none =>
      let standalone := home ++ "/.claude/local/claude"
      if fs.pathExists standalone then standalone
      else if fs.pathExists "/usr/local/bin/claude" then "/usr/local/bin/claude"
      else if fs.pathExists "/usr/bin/claude" then "/usr/bin/claude"
      else
        let npmPath := home ++ "/.npm-global/bin/claude"
        if fs.pathExists npmPath then npmPath
        else "claude"

/-- Model of `find_gemini_binary` (claude.rs:185-248): returns the (executable,
pre-args) pair — either an interpreter plus script, or a wrapper/fallback
with no pre-args. -/
def findGeminiBinary (os : HostOS) (home : String) (fs : FS) : String × List String :=
  match os with
  | .windows =>
    let script := home ++ "\\AppData\\Roaming\\npm\\node_modules\\@google\\gemini-cli\\dist\\index.js"
    if fs.pathExists script then
      let nodeNpm := home ++ "\\AppData\\Roaming\\npm\\node.exe"
      if fs.pathExists nodeNpm then (nodeNpm, [script])
      else if fs.pathExists "C:\\Program Files\\nodejs\\node.exe" then
        ("C:\\Program Files\\nodejs\\node.exe", [script])
      else ("node", [script])
    else
      let npmPath := home ++ "\\AppData\\Roaming\\npm\\gemini.cmd"
      if fs.pathExists npmPath then (npmPath, [])
      else ("gemini", [])
  | .macos =>
    let npmGlobal := home ++ "/.npm-global/lib/node_modules/@google/gemini-cli/dist/index.js"
    if fs.pathExists npmGlobal then ("node", [npmGlobal])
    else if fs.pathExists "/usr/local/lib/node_modules/@google/gemini-cli/dist/index.js" then
      ("node", ["/usr/local/lib/node_modules/@google/gemini-cli/dist/index.js"])
    else
      let npmBin := home ++ "/.npm-global/bin/gemini"
      if fs.pathExists npmBin then (npmBin, [])
      else if fs.pathExists "/opt/homebrew/bin/gemini" then ("/opt/homebrew/bin/gemini", [])
      else if fs.pathExists "/usr/local/bin/gemini" then ("/usr/local/bin/gemini", [])
      else ("gemini", [])
  | .linux =>
    let npmGlobal := home ++ "/.npm-global/lib/node_modules/@google/gemini-cli/dist/index.js"
    if fs.pathExists npmGlobal then ("node", [npmGlobal])
    else if fs.pathExists "/usr/local/lib/node_modules/@google/gemini-cli/dist/index.js" then
      ("node", ["/usr/local/lib/node_modules/@google/gemini-cli/dist/index.js"])
    else
      let npmBin := home ++ "/.npm-global/bin/gemini"
      if fs.pathExists npmBin then (npmBin, [])
      else ("gemini", [])

/-- The binary resolution of `run_query` (claude.rs:255-259). -/
def resolvedBinary (os : HostOS) (home : String) (fs : FS) (cfg : QueryConfig) :
    String × List String :=
  if isGeminiEngine cfg then findGeminiBinary os home fs
  else (findClaudeBinary os home fs, [])

/-- The installation candidates probed by the VS-Code-extension scan: the
probe path of every extension-directory entry whose name matches the
extension prefix and the platform marker. -/
def vscodeCandidates (fs : FS) (extDir marker binRel sep : String) :
    List String :=
  match fs.readDir extDir with
  | none => []
  | some entries =>
    (entries.filter
      (fun n => strStartsWith n "anthropic.claude-code-" && strContains n marker)).map
      (fun n => extDir ++ sep ++ n ++ binRel)

/-- The prioritized installation candidates `find_claude_binary` probes on
each platform (claude.rs:49-176), in search order: the VS-Code-extension
probes, then the platform's fixed paths. -/
def claudeCandidates (os : HostOS) (home : String) (fs : FS) : List String :=
  match os with
  | .windows =>
    vscodeCandidates fs (home ++ "\\.vscode\\extensions") "win32"
      "\\resources\\native-binary\\claude.exe" "\\"
    ++ [home ++ "\\AppData\\Roaming\\npm\\claude.cmd"]
  | .macos =>
    vscodeCandidates fs (home ++ "/.vscode/extensions") "darwin"
      "/resources/native-binary/claude" "/"
    ++ [home ++ "/.claude/local/claude", "/opt/homebrew/bin/claude",
        "/usr/local/bin/claude", home ++ "/.npm-global/bin/claude"]
  | .linux =>
    vscodeCandidates fs (home ++ "/.vscode/extensions") "linux"
      "/resources/native-binary/claude" "/"
    ++ [home ++ "/.claude/local/claude", "/usr/local/bin/claude",
        "/usr/bin/claude", home ++ "/.npm-global/bin/claude"]

/-- The prioritized installation candidates `find_gemini_binary` probes on
each platform (claude.rs:185-248), in search order.  The node interpreter
paths are not installation candidates: they are consulted only after the
npm script has been found. -/
def geminiCandidates (os : HostOS) (home : String) : List String :=
  match os with
  | .windows =>
    [home ++ "\\AppData\\Roaming\\npm\\node_modules\\@google\\gemini-cli\\dist\\index.js",
     home ++ "\\AppData\\Roaming\\npm\\gemini.cmd"]
  | .macos =>
    [home ++ "/.npm-global/lib/node_modules/@google/gemini-cli/dist/index.js",
     "/usr/local/lib/node_modules/@google/gemini-cli/dist/index.js",
     home ++ "/.npm-global/bin/gemini",
     "/opt/homebrew/bin/gemini", "/usr/local/bin/gemini"]
  | .linux =>
    [home ++ "/.npm-global/lib/node_modules/@google/gemini-cli/dist/index.js",
     "/usr/local/lib/node_modules/@google/gemini-cli/dist/index.js",
     home ++ "/.npm-global/bin/gemini"]

/-! ### Registry (claude.rs:11, lib.rs:139-151, claude.rs:444-453)

The `ProcessRegistry` is `Arc<Mutex<HashMap<String, Child>>>`; it is
modelled as an association list from query id to an abstract process-handle
token (`Nat`).  `HashMap::insert` overwrites the key, `HashMap::remove`
deletes it and yields the value; both are O(1) whole-map critical sections
under the single mutex, so an execution is a sequence of these atomic
operations. -/

abbrev Registry := List (String × Nat)

/-- Key uniqueness — the `HashMap` structural invariant: no two live
entries share a query id. -/
def RegistryWF (reg : Registry) : Prop :=
  (reg.map Prod.fst).Nodup

/-- Rust `HashMap::remove` (key deletion part). -/
def removeChild (reg : Registry) (qid : String) : Registry :=
  reg.filter (fun p => p.1 != qid)

/-- Rust `HashMap::insert` (claude.rs:389): the new binding replaces any old one. -/
def registryInsert (reg : Registry) (qid : String) (h : Nat) : Registry :=
  (qid, h) :: removeChild reg qid

/-- Result of `cancel_query` (lib.rs:139-151): the registry afterwards,
the returned boolean, and the handles that were killed. -/
structure CancelResult where
  registry : Registry
  found : Bool
  killed : List Nat
deriving Repr, DecidableEq

/-- Model of `cancel_query` (lib.rs:139-151): remove the entry if present and kill
its handle, returning whether an entry was found; otherwise do nothing and
return false. -/
def cancelQuery (reg : Registry) (qid : String) : CancelResult :=
  match reg.lookup qid with
  | some h => ⟨removeChild reg qid, true, [h]⟩
  | none => ⟨reg, false, []⟩

/-- Result of the supervisor's final removal: the registry afterwards and
the child retrieved for the final wait (`none` = already cancelled, treated
as killed). -/
structure FinishResult where
  registry : Registry
  child : Option Nat
deriving Repr, DecidableEq

/-- The supervising task's remove-for-final-wait (claude.rs:444-453):
`reg.remove(&query_id)` — on success the child is waited on, on `None` the
query is treated as killed. -/
def supervisorFinish (reg : Registry) (qid : String) : FinishResult :=
  match reg.lookup qid with
  | some h => ⟨removeChild reg qid, some h⟩
  | none => ⟨reg, none⟩

/-! ### Stream relay and events (claude.rs:396-439)

The serde-JSON boundary of the stdout relay is abstracted as
`extract : String → Option String`, the composite of
`serde_json::from_str::<Value>(&line)`, `.get("session_id")` and
`.as_str()`: `extract line = some s` exactly when the line parses as JSON
carrying a string-valued `session_id` field `s` (possibly empty).  A line
consisting solely of whitespace never parses as JSON, which theorems record
as the hypothesis `∀ l, isBlankLine l = true → extract l = none`. -/

/-- Events emitted to the frontend: `claude-message` (claude.rs:416-419),
`claude-error` (claude.rs:433-436), `claude-done` (claude.rs:466-473). -/
inductive Event where
  | message (queryId data engine : String)
  | error (queryId data : String)
  | done (queryId : String) (exitCode : Int) (sessionId : Option String)
deriving Repr, DecidableEq

def isDone : Event → Bool
  | .done _ _ _ => true
  | _ => false

/-- One step of the stdout relay's session-id accumulation
(claude.rs:404-415): a blank line is skipped; a line whose JSON carries a
non-empty string `session_id` overwrites the remembered value; every other
line leaves it unchanged. -/
def relayStep (extract : String → Option String) (acc : Option String)
    (l : String) : Option String :=
  if isBlankLine l then acc
  else
    match extract l with
    | some s => if s = "" then acc else some s
    | none => acc

/-- The stdout relay's session-id accumulation over the whole stream
(claude.rs:402-421), starting from `None`; the fold's result is the relay
task's return value (claude.rs:421) and the sole session id carried into
the terminal event (claude.rs:442, 471). -/
def stdoutRelaySid (extract : String → Option String) (lines : List String) :
    Option String :=
  lines.foldl (relayStep extract) none

/-- The `claude-message` events emitted by the stdout relay
(claude.rs:404-420): one event per non-blank line, raw line verbatim, with
the engine tag; blank lines are dropped. -/
def stdoutEvents (qid eng : String) (lines : List String) : List Event :=
  lines.filterMap fun l =>
    if isBlankLine l then none else some (.message qid l eng)

/-- The `claude-error` events emitted by the stderr relay
(claude.rs:428-439): one event per non-blank line, verbatim. -/
def stderrEvents (qid : String) (lines : List String) : List Event :=
  lines.filterMap fun l =>
    if isBlankLine l then none else some (.error qid l)

/-- The two relays are independently scheduled tasks; the observed event
order for one query is an arbitrary interleaving of the two per-stream
sequences (per-stream order preserved, no cross-stream guarantee). -/
inductive Interleave : List α → List α → List α → Prop where
  | nil : Interleave [] [] []
  | left {x : α} {xs ys zs : List α} :
      Interleave xs ys zs → Interleave (x :: xs) ys (x :: zs)
  | right {y : α} {xs ys zs : List α} :
      Interleave xs ys zs → Interleave xs (y :: ys) (y :: zs)

/-! ### Exit reconciliation and terminal event (claude.rs:441-476) -/

/-- The wait-for-exit outcome fed into reconciliation: `none` models
`status = None` (the registry entry was already removed — cancelled — or
`wait` failed, claude.rs:445-453); `some none` models an exit status
carrying no code (killed by a signal); `some (some c)` a real exit code. -/
abbrev WaitStatus := Option (Option Int)

/-- Rust `status.and_then(|s| s.code()).unwrap_or(-1)` (claude.rs:455): the raw
exit code, with the sentinel `-1` when no code is available. -/
def rawExitCode (status : WaitStatus) : Int :=
  (status.bind id).getD (-1)

/-- The benign-crash remap (claude.rs:459-463): a gemini query with a
non-zero raw exit but a harvested session id is reported as exit 0; every
other query reports the raw exit code. -/
def reconcileExit (isGem : Bool) (status : WaitStatus) (sid : Option String) : Int :=
  let raw := rawExitCode status
  if isGem && (raw != 0) && sid.isSome then 0 else raw

/-- The possible post-registration event traces of one query
(claude.rs:396-473), with the supervisor's synchronization as actually
implemented: the supervising task awaits only the stdout relay's
`JoinHandle` (claude.rs:442) before removing the registry entry, waiting
for exit and emitting the single terminal `claude-done` event — the stderr
relay task spawned at claude.rs:428 has its `JoinHandle` dropped and is
never joined.  The observable traces are therefore the interleavings of
the stdout relay's events followed by `done` (which carries the reconciled
exit code and the stdout relay's final session id) with the stderr relay's
events: `done` follows every stdout event, but a stderr `claude-error`
event is unordered relative to `done` and may be emitted after it. -/
def superviseTraces (qid eng : String) (isGem : Bool)
    (extract : String → Option String)
    (stdoutLines stderrLines : List String) (status : WaitStatus)
    (tr : List Event) : Prop :=
  Interleave
    (stdoutEvents qid eng stdoutLines ++
      [.done qid (reconcileExit isGem status (stdoutRelaySid extract stdoutLines))
        (stdoutRelaySid extract stdoutLines)])
    (stderrEvents qid stderrLines) tr

/-! ### Spawn and submission (claude.rs:369-389, lib.rs:109-137) -/

/-- The spawn-failure message (claude.rs:371):
`format!("Failed to spawn {}: {} (binary: {})", engine, e, binary)`. -/
def spawnErrorMsg (engine errMsg binary : String) : String :=
  "Failed to spawn " ++ engine ++ ": " ++ errMsg ++ " (binary: " ++ binary ++ ")"

/-- The spawn-and-register step of `run_query` (claude.rs:369-389),
parameterized by the OS outcome of `Command::spawn` (`.error e` = the OS
error string, `.ok h` = a live child handle): on failure `run_query`
returns the tagged error without touching the registry; on success the
child is inserted into the registry before any further await point. -/
def runQuerySpawn (os : HostOS) (home : String) (fs : FS) (reg : Registry)
    (qid : String) (cfg : QueryConfig) (spawn : Except String Nat) :
    Except String (Registry × Nat) :=
  match spawn with
  | .error e =>
    .error (spawnErrorMsg (engineName cfg) e (resolvedBinary os home fs cfg).1)
  | .ok h => .ok (registryInsert reg qid h, h)

/-- What `send_query` (lib.rs:109-137) produces: the synchronous return
value handed to the invoking frontend, the events emitted by the detached
task on the spawn-failure path, and the registry after the spawn step. -/
structure SubmitOutcome where
  ret : Except String String
  asyncEvents : List Event
  registry : Registry
deriving Repr

/-- Model of `send_query` (lib.rs:109-137): generate a query id, `tokio::spawn` the
supervising task (fire-and-forget) and return `Ok(query_id)` immediately;
when the detached `run_query` returns an error (the only error return is
spawn failure, claude.rs:369-371), the task emits it as a `claude-error`
event (lib.rs:128-134).  Post-spawn streaming is modelled by
`superviseTraces`. -/
def sendQuery (os : HostOS) (home : String) (fs : FS) (reg : Registry)
    (qid : String) (cfg : QueryConfig) (spawn : Except String Nat) : SubmitOutcome :=
  match runQuerySpawn os home fs reg qid cfg spawn with
  | .error e => { ret := .ok qid, asyncEvents := [.error qid e], registry := reg }
  | .ok (reg', _) => { ret := .ok qid, asyncEvents := [], registry := reg' }

/-! ### Registry lemmas -/

theorem lookup_cons (q k : String) (v : Nat) (t : Registry) :
    List.lookup q ((k, v) :: t) = if q == k then some v else List.lookup q t := by
  cases h : q == k <;> simp [List.lookup, h]

theorem lookup_removeChild_self (reg : Registry) (qid : String) :
    (removeChild reg qid).lookup qid = none := by
  induction reg with
  | nil => rfl
  | cons a t ih =>
    obtain ⟨k, v⟩ := a
    by_cases h : k = qid
    · simpa [removeChild, List.filter_cons, h] using ih
    · have hbne : (k != qid) = true := bne_iff_ne.mpr h
      have hq : (qid == k) = false := beq_eq_false_iff_ne.mpr (Ne.symm h)
      simp only [removeChild, List.filter_cons, hbne, if_pos]
      rw [lookup_cons, hq, if_neg (by simp)]
      exact ih

theorem registryWF_removeChild {reg : Registry} (hwf : RegistryWF reg) (qid : String) :
    RegistryWF (removeChild reg qid) :=
  List.Nodup.sublist (List.Sublist.map Prod.fst (List.filter_sublist reg)) hwf

theorem registryWF_insert {reg : Registry} (hwf : RegistryWF reg) (qid : String) (h : Nat) :
    RegistryWF (registryInsert reg qid h) := by
  refine List.Nodup.cons ?_ (registryWF_removeChild hwf qid)
  intro hmem
  obtain ⟨p, hp, hfst⟩ := List.mem_map.mp hmem
  have := (List.mem_filter.mp hp).2
  rw [hfst] at this
  exact absurd rfl (bne_iff_ne.mp this)

/-- C7: `cancel_query` on an id with no live Registry entry returns false
and has no side effect (registry untouched, no kill); on a live entry it
removes exactly that entry (the id is gone afterwards), kills its handle,
and returns true. -/
theorem cancel_query_semantics (reg : Registry) (qid : String) :
    (reg.lookup qid = none →
      (cancelQuery reg qid).registry = reg ∧
      (cancelQuery reg qid).found = false ∧
      (cancelQuery reg qid).killed = []) ∧
    (∀ h : Nat, reg.lookup qid = some h →
      (cancelQuery reg qid).registry = removeChild reg qid ∧
      (cancelQuery reg qid).registry.lookup qid = none ∧
      (cancelQuery reg qid).found = true ∧
      (cancelQuery reg qid).killed = [h]) := by
  constructor
  · intro hnone
    simp [cancelQuery, hnone]
  · intro h hsome
    simp [cancelQuery, hsome, lookup_removeChild_self]

theorem cancel_query_semantics_witness :
    ((List.lookup "absent" ([("q", 7)] : Registry) = none →
      (cancelQuery [("q", 7)] "absent").registry = [("q", 7)] ∧
      (cancelQuery [("q", 7)] "absent").found = false ∧
      (cancelQuery [("q", 7)] "absent").killed = []) ∧ True) ∧
    ((cancelQuery [("q", 7)] "q").registry = removeChild [("q", 7)] "q" ∧
      (cancelQuery [("q", 7)] "q").registry.lookup "q" = none ∧
      (cancelQuery [("q", 7)] "q").found = true ∧
      (cancelQuery [("q", 7)] "q").killed = [7]) :=
  ⟨⟨(cancel_query_semantics [("q", 7)] "absent").1, trivial⟩,
    (cancel_query_semantics [("q", 7)] "q").2 7 (by decide)⟩

/-- C1: for a registered query (a live Registry entry for its id), the two
removal attempts — `cancel_query`'s remove-and-kill and the supervising
task's remove-for-final-wait — race under the single Registry lock, so an
execution runs them in one of the two orders.  In either order exactly one
attempt succeeds in removing the entry; the loser observes "not found" and
completes normally (`cancel_query` returns false and kills nothing; the
supervisor gets no child back and treats the query as killed), and every
reachable registry state keeps at most one entry per query id. -/
theorem registry_removal_race (reg : Registry) (qid : String) (h : Nat)
    (hwf : RegistryWF reg) (hlive : reg.lookup qid = some h) :
    ((cancelQuery reg qid).found = true ∧
      (cancelQuery reg qid).killed = [h] ∧
      (supervisorFinish (cancelQuery reg qid).registry qid).child = none ∧
      (supervisorFinish (cancelQuery reg qid).registry qid).registry =
        (cancelQuery reg qid).registry) ∧
    ((supervisorFinish reg qid).child = some h ∧
      (cancelQuery (supervisorFinish reg qid).registry qid).found = false ∧
      (cancelQuery (supervisorFinish reg qid).registry qid).killed = [] ∧
      (cancelQuery (supervisorFinish reg qid).registry qid).registry =
        (supervisorFinish reg qid).registry) ∧
    (RegistryWF (cancelQuery reg qid).registry ∧
      RegistryWF (supervisorFinish reg qid).registry ∧
      ∀ qid' h', RegistryWF (registryInsert reg qid' h')) := by
  refine ⟨?_, ?_, ?_, ?_, ?_⟩
  · simp [cancelQuery, hlive, supervisorFinish, lookup_removeChild_self]
  · simp [supervisorFinish, hlive, cancelQuery, lookup_removeChild_self]
  · simp [cancelQuery, hlive]
    exact registryWF_removeChild hwf qid
  · simp [supervisorFinish, hlive]
    exact registryWF_removeChild hwf qid
  · exact fun qid' h' => registryWF_insert hwf qid' h'

theorem registry_removal_race_witness :
    (cancelQuery [("q", 7)] "q").found = true ∧
    (supervisorFinish (cancelQuery [("q", 7)] "q").registry "q").child = none ∧
    (supervisorFinish [("q", 7)] "q").child = some 7 ∧
    (cancelQuery (supervisorFinish [("q", 7)] "q").registry "q").found = false :=
  ⟨(registry_removal_race [("q", 7)] "q" 7 (by simp [RegistryWF]) (by decide)).1.1,
    (registry_removal_race [("q", 7)] "q" 7 (by simp [RegistryWF]) (by decide)).1.2.2.1,
    (registry_removal_race [("q", 7)] "q" 7 (by simp [RegistryWF]) (by decide)).2.1.1,
    (registry_removal_race [("q", 7)] "q" 7 (by simp [RegistryWF]) (by decide)).2.1.2.1⟩

/-! ### Engine dispatch and command building -/

/-- C10: the engine selector is never validated or rejected.  An absent
engine field and every engine string other than exactly `"gemini"`
(including `"primary"`) produce the claude-branch command; only the exact
string `"gemini"` produces the gemini-branch command.  `buildCommand` is a
total function — no input is refused. -/
theorem engine_selector_dispatch (cfg : QueryConfig) (cb : String)
    (gb : String × List String) :
    (cfg.engine = none →
      isGeminiEngine cfg = false ∧ buildCommand cfg cb gb = buildClaude cfg cb) ∧
    (∀ s, cfg.engine = some s → s ≠ "gemini" →
      isGeminiEngine cfg = false ∧ buildCommand cfg cb gb = buildClaude cfg cb) ∧
    (cfg.engine = some "gemini" →
      isGeminiEngine cfg = true ∧ buildCommand cfg cb gb = buildGemini cfg gb) := by
  refine ⟨?_, ?_, ?_⟩
  · intro hn
    have hg : isGeminiEngine cfg = false := by
      simp [isGeminiEngine, engineName, hn]
    exact ⟨hg, by simp [buildCommand, hg]⟩
  · intro s hs hne
    have hg : isGeminiEngine cfg = false := by
      simp only [isGeminiEngine, engineName, hs, Option.getD_some]
      exact beq_eq_false_iff_ne.mpr hne
    exact ⟨hg, by simp [buildCommand, hg]⟩
  · intro hs
    have hg : isGeminiEngine cfg = true := by
      simp [isGeminiEngine, engineName, hs]
    exact ⟨hg, by simp [buildCommand, hg]⟩

theorem engine_selector_dispatch_witness :
    (isGeminiEngine { message := "hi", engine := some "primary" } = false ∧
      buildCommand { message := "hi", engine := some "primary" } "claude" ("gemini", []) =
        buildClaude { message := "hi", engine := some "primary" } "claude") ∧
    (isGeminiEngine { message := "hi", engine := some "gemini" } = true ∧
      buildCommand { message := "hi", engine := some "gemini" } "claude" ("gemini", []) =
        buildGemini { message := "hi", engine := some "gemini" } ("gemini", [])) ∧
    (isGeminiEngine { message := "hi" } = false ∧
      buildCommand { message := "hi" } "claude" ("gemini", []) =
        buildClaude { message := "hi" } "claude") :=
  ⟨(engine_selector_dispatch { message := "hi", engine := some "primary" } "claude"
      ("gemini", [])).2.1 "primary" rfl (by decide),
    (engine_selector_dispatch { message := "hi", engine := some "gemini" } "claude"
      ("gemini", [])).2.2 rfl,
    (engine_selector_dispatch { message := "hi" } "claude" ("gemini", [])).1 rfl⟩

/-- C8: for both engines, the built argument vector carries the engine's
resume flag with the session id exactly when `resume` is true and a session
id is present: in that case `["-r", sid]` (claude) resp. `["--resume", sid]`
(gemini) occurs as a contiguous segment of the argument list; when `resume`
is false the arguments are identical to those of the same config without
any session id (so the resume flag is absent even though a session id is
present), and when no session id is present they are identical to those of
the same config with `resume` false. -/
theorem resume_flag_iff (cfg : QueryConfig) :
    (∀ s, cfg.resume = true → cfg.sessionId = some s →
      (∃ pre post, claudeFlagArgs cfg = pre ++ ["-r", s] ++ post) ∧
      (∃ pre post, geminiFlagArgs cfg = pre ++ ["--resume", s] ++ post)) ∧
    (cfg.resume = false →
      claudeFlagArgs cfg = claudeFlagArgs { cfg with sessionId := none } ∧
      geminiFlagArgs cfg = geminiFlagArgs { cfg with sessionId := none }) ∧
    (cfg.sessionId = none →
      claudeFlagArgs cfg = claudeFlagArgs { cfg with resume := false } ∧
      geminiFlagArgs cfg = geminiFlagArgs { cfg with resume := false }) := by
  refine ⟨?_, ?_, ?_⟩
  · intro s hres hsid
    constructor
    · refine ⟨claudePreResumeArgs cfg,
        (if messageLen cfg ≤ 6000 then [cfg.message] else []), ?_⟩
      simp [claudeFlagArgs, claudeFlagArgsCore, claudeResumeArgs, hres, hsid,
        messageLen]
    · refine ⟨["--prompt", geminiFullMessage cfg, "--output-format", "stream-json",
        "--yolo"] ++ (match cfg.model with | some m => ["--model", m] | none => []),
        [], ?_⟩
      simp [geminiFlagArgs, geminiResumeArgs, hres, hsid]
  · intro hres
    constructor
    · simp [claudeFlagArgs, claudeFlagArgsCore, claudeResumeArgs,
        claudePreResumeArgs, hres, messageLen]
      cases cfg.sessionId <;> simp
    · simp [geminiFlagArgs, geminiResumeArgs, geminiFullMessage, hres]
      cases cfg.sessionId <;> simp
  · intro hsid
    constructor
    · simp [claudeFlagArgs, claudeFlagArgsCore, claudeResumeArgs,
        claudePreResumeArgs, hsid, messageLen]
    · simp [geminiFlagArgs, geminiResumeArgs, geminiFullMessage, hsid]

theorem resume_flag_iff_witness :
    ((∃ pre post,
        claudeFlagArgs { message := "hi", sessionId := some "abc", resume := true } =
          pre ++ ["-r", "abc"] ++ post) ∧
      (∃ pre post,
        geminiFlagArgs { message := "hi", sessionId := some "abc", resume := true } =
          pre ++ ["--resume", "abc"] ++ post)) ∧
    (claudeFlagArgs { message := "hi", sessionId := some "abc", resume := false } =
        claudeFlagArgs { message := "hi", sessionId := none, resume := false } ∧
      geminiFlagArgs { message := "hi", sessionId := some "abc", resume := false } =
        geminiFlagArgs { message := "hi", sessionId := none, resume := false }) :=
  ⟨(resume_flag_iff { message := "hi", sessionId := some "abc", resume := true }).1
      "abc" rfl rfl,
    (resume_flag_iff { message := "hi", sessionId := some "abc", resume := false }).2.1
      rfl⟩

/-! ### Message delivery threshold (claude.rs:335-339, 347-356, 374-383) -/

theorem utf8ByteSize_replicate_a (n : Nat) :
    (String.mk (List.replicate n 'a')).utf8ByteSize = n := by
  show String.utf8ByteSize.go (List.replicate n 'a') = n
  induction n with
  | zero => rfl
  | succ k ih =>
    show String.utf8ByteSize.go (List.replicate k 'a') + Char.utf8Size 'a' = k + 1
    rw [ih, show Char.utf8Size 'a' = 1 from rfl]

/-- A message of exactly 6000 ASCII characters (6000 bytes): exactly at the
threshold. -/
def msg6000 : String := String.mk (List.replicate 6000 'a')

/-- A message of 6001 ASCII characters: strictly above the threshold. -/
def msg6001 : String := String.mk (List.replicate 6001 'a')

/-- C4 counterexample: for a primary-engine query whose message is exactly
6000 characters long — *at* the claimed threshold — the code appends the
message as the last positional argument and does **not** open piped stdin
(claude.rs:337 tests `len <= 6000`, claude.rs:349 tests `len > 6000`),
whereas the claim requires a message at the threshold to be withheld from
the argument vector and delivered over piped stdin. -/
theorem message_at_threshold_counterexample :
    messageLen { message := msg6000 } = 6000 ∧
    isGeminiEngine { message := msg6000 } = false ∧
    (buildClaude { message := msg6000 } "claude").args.getLast? = some msg6000 ∧
    (buildClaude { message := msg6000 } "claude").pipeStdin = false ∧
    pipeStdinFor { message := msg6000 } = false ∧
    stdinWrites { message := msg6000 } (buildClaude { message := msg6000 } "claude") =
      none := by
  have hlen : messageLen { message := msg6000 } = 6000 := utf8ByteSize_replicate_a 6000
  refine ⟨hlen, rfl, ?_, ?_, ?_, ?_⟩
  · simp [buildClaude, claudeFlagArgs, claudeFlagArgsCore, claudePreResumeArgs,
      claudeResumeArgs, wrapProgram, hlen,
      show strEndsWith "claude" ".cmd" = false from rfl]
  · simp [buildClaude, hlen]
  · simp [pipeStdinFor, hlen, isGeminiEngine, engineName]
  · simp [stdinWrites, buildClaude, hlen]

/-- C4 (amended): for every primary-engine `QueryConfig`, if the message
byte length is *at most* 6000 the message is appended as the last
positional argument and stdin is not opened in piped mode; if it is
*strictly above* 6000 the message is withheld from the argument vector,
stdin is opened piped, and exactly the message's bytes are written to
stdin, after which the handle is dropped and the stream closed. -/
theorem message_threshold_delivery (cfg : QueryConfig) (binary : String)
    (hng : isGeminiEngine cfg = false) :
    (messageLen cfg ≤ 6000 →
      (buildClaude cfg binary).args =
        (wrapProgram binary []).2 ++ claudeFlagArgsCore cfg ++ [cfg.message] ∧
      (buildClaude cfg binary).args.getLast? = some cfg.message ∧
      (buildClaude cfg binary).pipeStdin = false ∧
      pipeStdinFor cfg = false ∧
      stdinWrites cfg (buildClaude cfg binary) = none) ∧
    (6000 < messageLen cfg →
      (buildClaude cfg binary).args =
        (wrapProgram binary []).2 ++ claudeFlagArgsCore cfg ∧
      (buildClaude cfg binary).pipeStdin = true ∧
      pipeStdinFor cfg = true ∧
      stdinWrites cfg (buildClaude cfg binary) = some cfg.message) := by
  constructor
  · intro hle
    have hnotgt : ¬(6000 < messageLen cfg) := Nat.not_lt.mpr hle
    refine ⟨?_, ?_, ?_, ?_, ?_⟩
    · simp [buildClaude, claudeFlagArgs, hle, List.append_assoc]
    · simp [buildClaude, claudeFlagArgs, hle, ← List.append_assoc,
        List.getLast?_concat]
    · simp [buildClaude, hnotgt]
    · simp [pipeStdinFor, hng, hnotgt]
    · simp [stdinWrites, buildClaude, hnotgt]
  · intro hgt
    have hnotle : ¬(messageLen cfg ≤ 6000) := Nat.not_le.mpr hgt
    refine ⟨?_, ?_, ?_, ?_⟩
    · simp [buildClaude, claudeFlagArgs, hnotle]
    · simp [buildClaude, hgt]
    · simp [pipeStdinFor, hng, hgt]
    · simp [stdinWrites, buildClaude, hgt]

theorem message_threshold_delivery_witness :
    ((buildClaude { message := "hi" } "claude").args.getLast? = some "hi" ∧
      (buildClaude { message := "hi" } "claude").pipeStdin = false) ∧
    ((buildClaude { message := msg6001 } "claude").pipeStdin = true ∧
      stdinWrites { message := msg6001 }
        (buildClaude { message := msg6001 } "claude") = some msg6001) :=
  ⟨⟨(((message_threshold_delivery { message := "hi" } "claude" rfl).1)
        (by decide)).2.1,
    (((message_threshold_delivery { message := "hi" } "claude" rfl).1)
        (by decide)).2.2.1⟩,
    ⟨(((message_threshold_delivery { message := msg6001 } "claude" rfl).2)
        (by rw [show messageLen { message := msg6001 } = 6001 from
              utf8ByteSize_replicate_a 6001]; norm_num)).2.1,
      (((message_threshold_delivery { message := msg6001 } "claude" rfl).2)
        (by rw [show messageLen { message := msg6001 } = 6001 from
              utf8ByteSize_replicate_a 6001]; norm_num)).2.2.2⟩⟩

/-! ### Exit-code reconciliation (claude.rs:455-463) -/

/-- C5 counterexample: a secondary-engine (gemini) process killed by a
signal — an exit status without a code, so the raw code is the sentinel
`-1` — whose stdout yielded a session id gets its terminal exit code
remapped to `0` (claude.rs:459-463), whereas the claim's first clause
requires the terminal event to carry the sentinel failure code whenever the
process exits without a code. -/
theorem exit_remap_counterexample :
    rawExitCode (some none) = -1 ∧
    reconcileExit true (some none) (some "xyz") = 0 ∧
    (0 : Int) ≠ -1 := by
  refine ⟨rfl, rfl, by decide⟩

/-- C5 (amended): the raw process exit code is the reported code when
present and the sentinel `-1` when absent (cancelled, or killed by a
signal); the secondary-engine remap takes precedence over the sentinel —
if the engine is gemini, the raw exit code (sentinel included) is non-zero
and a session id was harvested from stdout, the terminal exitCode is
remapped to `0`; in every other case the terminal exitCode equals the raw
exit code. -/
theorem exit_code_reconciliation (isGem : Bool) (status : WaitStatus)
    (sid : Option String) :
    (status.bind id = none → rawExitCode status = -1) ∧
    (isGem = true → rawExitCode status ≠ 0 → sid.isSome = true →
      reconcileExit isGem status sid = 0) ∧
    (¬(isGem = true ∧ rawExitCode status ≠ 0 ∧ sid.isSome = true) →
      reconcileExit isGem status sid = rawExitCode status) := by
  refine ⟨?_, ?_, ?_⟩
  · intro hnone
    have h' : (Option.bind status fun a => a) = none := hnone
    simp [rawExitCode, h']
  · intro hg hnz hsid
    simp [reconcileExit, hg, hnz, hsid]
  · intro hnot
    by_cases hg : isGem = true
    · by_cases hnz : rawExitCode status ≠ 0
      · have hsid : sid.isSome = false := by
          cases hs : sid.isSome
          · rfl
          · exact absurd ⟨hg, hnz, hs⟩ hnot
        simp [reconcileExit, hsid]
      · have hz : rawExitCode status = 0 := not_not.mp hnz
        simp [reconcileExit, hz]
    · have hg' : isGem = false := by simpa using hg
      simp [reconcileExit, hg']

theorem exit_code_reconciliation_witness :
    rawExitCode (some none) = -1 ∧
    reconcileExit true (some none) (some "xyz") = 0 ∧
    reconcileExit false (some none) (some "xyz") = rawExitCode (some none) ∧
    reconcileExit true (some (some 3)) none = rawExitCode (some (some 3)) ∧
    reconcileExit false (some (some 0)) none = rawExitCode (some (some 0)) :=
  ⟨(exit_code_reconciliation true (some none) (some "xyz")).1 rfl,
    (exit_code_reconciliation true (some none) (some "xyz")).2.1 rfl (by decide) rfl,
    (exit_code_reconciliation false (some none) (some "xyz")).2.2 (by simp),
    (exit_code_reconciliation true (some (some 3)) none).2.2 (by simp),
    (exit_code_reconciliation false (some (some 0)) none).2.2 (by simp)⟩

/-! ### Session-id harvesting (claude.rs:396-423) -/

/-- The non-empty session id carried by one line, if any: `some s` exactly
when the line parses as JSON with a string `session_id` field whose value
`s` is non-empty. -/
def sidOfLine (extract : String → Option String) (l : String) : Option String :=
  match extract l with
  | some s => if s = "" then none else some s
  | none => none

/-- The specification-side value: the last non-empty `session_id` among the
lines that parse as JSON and contain one, absent when no such line occurs. -/
def lastNonEmptySid (extract : String → Option String) (lines : List String) :
    Option String :=
  (lines.filterMap (sidOfLine extract)).getLast?

theorem getLast?_cons_eq_or (s : α) (l : List α) :
    (s :: l).getLast? = l.getLast?.or (some s) := by
  induction l generalizing s with
  | nil => rfl
  | cons b m ih =>
    rw [List.getLast?_cons_cons, ih b, Option.or_assoc]
    rfl

theorem relayStep_eq_of_sidOfLine_none (extract : String → Option String)
    (acc : Option String) (l : String) (h : sidOfLine extract l = none) :
    relayStep extract acc l = acc := by
  unfold relayStep
  unfold sidOfLine at h
  by_cases hb : isBlankLine l
  · simp [hb]
  · simp only [hb, if_neg]
    cases he : extract l with
    | none => rfl
    | some s =>
      rw [he] at h
      by_cases hs : s = ""
      · simp [hs]
      · simp [hs] at h

theorem relay_fold_or (extract : String → Option String)
    (hblank : ∀ l, isBlankLine l = true → extract l = none) :
    ∀ (lines : List String) (acc : Option String),
      lines.foldl (relayStep extract) acc =
        ((lines.filterMap (sidOfLine extract)).getLast?).or acc := by
  intro lines
  induction lines with
  | nil => intro acc; rfl
  | cons l ls ih =>
    intro acc
    rw [List.foldl_cons, ih (relayStep extract acc l)]
    cases hg : sidOfLine extract l with
    | none =>
      rw [relayStep_eq_of_sidOfLine_none extract acc l hg]
      simp [List.filterMap_cons, hg]
    | some s =>
      have hnb : isBlankLine l = false := by
        cases hb : isBlankLine l
        · rfl
        · unfold sidOfLine at hg
          rw [hblank l hb] at hg
          exact absurd hg (by simp)
      have hstep : relayStep extract acc l = some s := by
        unfold sidOfLine at hg
        unfold relayStep
        rw [hnb]
        simp only [Bool.false_eq_true, if_neg, if_false]
        cases he : extract l with
        | none => rw [he] at hg; exact absurd hg (by simp)
        | some t =>
          rw [he] at hg
          by_cases ht : t = ""
          · simp [ht] at hg
          · simp [ht] at hg ⊢
            exact hg
      rw [hstep]
      rw [List.filterMap_cons, hg, getLast?_cons_eq_or, Option.or_assoc]
      rfl

/-- C6: the session id the stdout relay hands to the terminal event equals
the last non-empty `session_id` value among the lines that parse as JSON
and contain one (last-write-wins), and is absent when no such line occurs;
later lines that omit the field or carry an empty value never overwrite an
earlier non-empty value.  The hypothesis records the serde-JSON boundary
fact that a whitespace-only line never parses as JSON. -/
theorem session_id_last_write_wins (extract : String → Option String)
    (lines : List String)
    (hblank : ∀ l, isBlankLine l = true → extract l = none) :
    stdoutRelaySid extract lines = lastNonEmptySid extract lines := by
  rw [stdoutRelaySid, lastNonEmptySid, relay_fold_or extract hblank lines none,
    Option.or_none]

/-- A concrete stand-in for the serde extraction: `"x"` carries an empty
session id, blank lines carry none, every other line carries itself. -/
def sampleExtract : String → Option String :=
  fun l => if isBlankLine l then none else if l = "x" then some "" else some l

theorem session_id_last_write_wins_witness :
    stdoutRelaySid sampleExtract ["a", "", "x"] =
      lastNonEmptySid sampleExtract ["a", "", "x"] ∧
    stdoutRelaySid sampleExtract ["a", "", "x"] = some "a" :=
  ⟨session_id_last_write_wins sampleExtract ["a", "", "x"]
      (fun l hl => by simp [sampleExtract, hl]),
    by decide⟩

/-! ### Terminal event (claude.rs:441-473) -/

theorem interleave_countP {α : Type _} (p : α → Bool) {xs ys zs : List α}
    (h : Interleave xs ys zs) : zs.countP p = xs.countP p + ys.countP p := by
  induction h with
  | nil => rfl
  | left h ih =>
    rw [List.countP_cons, List.countP_cons, ih]
    omega
  | right h ih =>
    rw [List.countP_cons, List.countP_cons, ih]
    omega

theorem not_isDone_stdoutEvents (qid eng : String) (lines : List String) :
    ∀ e ∈ stdoutEvents qid eng lines, isDone e = false := by
  intro e he
  obtain ⟨l, _, hfe⟩ := List.mem_filterMap.mp he
  cases hb : isBlankLine l <;> rw [hb] at hfe <;> simp at hfe
  rw [← hfe]
  rfl

theorem not_isDone_stderrEvents (qid : String) (lines : List String) :
    ∀ e ∈ stderrEvents qid lines, isDone e = false := by
  intro e he
  obtain ⟨l, _, hfe⟩ := List.mem_filterMap.mp he
  cases hb : isBlankLine l <;> rw [hb] at hfe <;> simp at hfe
  rw [← hfe]
  rfl

/-- Every admissible post-registration trace carries exactly one terminal
`done` event — the part of the terminal-event contract the program does
satisfy: the relay events are never `done` and the supervisor emits the
single `done` exactly once. -/
theorem superviseTraces_one_done (qid eng : String) (isGem : Bool)
    (extract : String → Option String) (stdoutLines stderrLines : List String)
    (status : WaitStatus) (tr : List Event)
    (h : superviseTraces qid eng isGem extract stdoutLines stderrLines status tr) :
    tr.countP (fun e => isDone e) = 1 := by
  unfold superviseTraces at h
  rw [interleave_countP _ h, List.countP_append]
  have h1 : (stdoutEvents qid eng stdoutLines).countP (fun e => isDone e) = 0 :=
    List.countP_eq_zero.mpr
      (by intro a ha; simp [not_isDone_stdoutEvents qid eng stdoutLines a ha])
  have h2 : (stderrEvents qid stderrLines).countP (fun e => isDone e) = 0 :=
    List.countP_eq_zero.mpr
      (by intro a ha; simp [not_isDone_stderrEvents qid stderrLines a ha])
  rw [h1, h2]
  rfl

/-- C2: the claim fails on the code.  `run_query` awaits only the stdout
relay's `JoinHandle` (claude.rs:442); the stderr relay task spawned at
claude.rs:428 is never joined, so nothing orders its `claude-error`
emissions before the terminal event — even though the code's own comment
at claude.rs:441 says "Wait for stdout/stderr streams to finish".  For a
query with no stdout output, one stderr line `"boom"` and exit status 0,
the trace `[done, error]` is admissible: the `done` event is not the last
event for the query and is emitted before the stderr relay has drained.
The trace still carries exactly one `done`. -/
theorem stderr_event_after_done :
    superviseTraces "q" "claude" false (fun _ => none) [] ["boom"]
      (some (some 0)) [.done "q" 0 none, .error "q" "boom"] ∧
    ([.done "q" 0 none, .error "q" "boom"] : List Event).getLast? =
      some (.error "q" "boom") ∧
    some (Event.error "q" "boom") ≠ some (Event.done "q" 0 none) ∧
    ([.done "q" 0 none, .error "q" "boom"] : List Event).countP
      (fun e => isDone e) = 1 := by
  refine ⟨?_, rfl, by simp, by decide⟩
  unfold superviseTraces
  rw [show stdoutEvents "q" "claude" [] = [] from rfl,
    show stdoutRelaySid (fun _ => none) [] = none from rfl,
    show reconcileExit false (some (some 0)) none = 0 from rfl,
    show stderrEvents "q" ["boom"] = [Event.error "q" "boom"] from by decide]
  exact .left (.right .nil)

/-! ### Spawn failure (claude.rs:369-371, lib.rs:109-137) -/

theorem listStarts_append {α : Type _} [BEq α] [LawfulBEq α] (l m : List α) :
    listStarts (l ++ m) l = true := by
  induction l with
  | nil => cases m <;> rfl
  | cons a t ih =>
    show ((a == a) && listStarts (t ++ m) t) = true
    rw [beq_self_eq_true, ih, Bool.and_self]

theorem listHasInfix_nil_pat {α : Type _} [BEq α] (l : List α) :
    listHasInfix l [] = true := by
  cases l with
  | nil => rfl
  | cons a t =>
    show (listStarts (a :: t) [] || listHasInfix t []) = true
    rw [show listStarts (a :: t) ([] : List α) = true from rfl, Bool.true_or]

theorem listHasInfix_append {α : Type _} [BEq α] [LawfulBEq α]
    (pre sub post : List α) : listHasInfix (pre ++ (sub ++ post)) sub = true := by
  induction pre with
  | nil =>
    rw [List.nil_append]
    cases sub with
    | nil => exact listHasInfix_nil_pat _
    | cons c s' =>
      show (listStarts ((c :: s') ++ post) (c :: s') ||
        listHasInfix (s' ++ post) (c :: s')) = true
      rw [listStarts_append, Bool.true_or]
  | cons a t ih =>
    show (listStarts ((a :: t) ++ (sub ++ post)) sub ||
      listHasInfix (t ++ (sub ++ post)) sub) = true
    rw [ih, Bool.or_true]

theorem strContains_of_data (s pat : String) (pre post : List Char)
    (h : s.data = pre ++ (pat.data ++ post)) : strContains s pat = true := by
  unfold strContains
  rw [h]
  exact listHasInfix_append _ _ _

/-- C3 (amended): for every submitted `QueryConfig` whose spawn fails, the
submit call itself still returns the query id; the failure is reported
asynchronously as a tagged `claude-error` event for that query id whose
message includes the engine name and the resolved binary path; no Registry
entry is created for the query, and no terminal (done) event is ever
emitted for it. -/
theorem spawn_failure_async_report (os : HostOS) (home : String) (fs : FS)
    (reg : Registry) (qid : String) (cfg : QueryConfig) (e : String) :
    runQuerySpawn os home fs reg qid cfg (.error e) =
      .error (spawnErrorMsg (engineName cfg) e (resolvedBinary os home fs cfg).1) ∧
    (sendQuery os home fs reg qid cfg (.error e)).ret = .ok qid ∧
    (sendQuery os home fs reg qid cfg (.error e)).asyncEvents =
      [.error qid
        (spawnErrorMsg (engineName cfg) e (resolvedBinary os home fs cfg).1)] ∧
    (sendQuery os home fs reg qid cfg (.error e)).registry = reg ∧
    (∀ ev ∈ (sendQuery os home fs reg qid cfg (.error e)).asyncEvents,
      isDone ev = false) ∧
    strContains (spawnErrorMsg (engineName cfg) e (resolvedBinary os home fs cfg).1)
      (engineName cfg) = true ∧
    strContains (spawnErrorMsg (engineName cfg) e (resolvedBinary os home fs cfg).1)
      (resolvedBinary os home fs cfg).1 = true := by
  refine ⟨rfl, rfl, rfl, rfl, ?_, ?_, ?_⟩
  · intro ev hev
    simp only [sendQuery, runQuerySpawn] at hev
    rcases List.mem_singleton.mp hev with rfl
    rfl
  · exact strContains_of_data _ _ ("Failed to spawn ".data)
      ((": " ++ e ++ " (binary: " ++ (resolvedBinary os home fs cfg).1 ++ ")").data)
      (by simp [spawnErrorMsg, String.data_append, List.append_assoc])
  · exact strContains_of_data _ _
      (("Failed to spawn " ++ engineName cfg ++ ": " ++ e ++ " (binary: ").data)
      (")".data)
      (by simp [spawnErrorMsg, String.data_append, List.append_assoc])

/-- C3 counterexample: a query whose spawn fails (here: on a filesystem
with no installation, with the OS reporting "No such file or directory")
is *not* returned synchronously to the submit caller as a failure —
`send_query` fire-and-forgets the supervising task and returns
`Ok(query_id)` unconditionally (lib.rs:127-136); the tagged failure goes
out as an asynchronous `claude-error` event instead. -/
theorem spawn_failure_sync_claim_false :
    (sendQuery .linux "/home/u" ⟨fun _ => false, fun _ => none⟩ [] "q1"
        { message := "hi" } (.error "No such file or directory")).ret =
      .ok "q1" ∧
    (Except.ok "q1" : Except String String) ≠
      .error (spawnErrorMsg "claude" "No such file or directory" "claude") ∧
    (sendQuery .linux "/home/u" ⟨fun _ => false, fun _ => none⟩ [] "q1"
        { message := "hi" } (.error "No such file or directory")).asyncEvents =
      [.error "q1" (spawnErrorMsg "claude" "No such file or directory" "claude")] := by
  refine ⟨rfl, by simp, ?_⟩
  rfl

theorem spawn_failure_async_report_witness :
    (sendQuery .linux "/home/u" ⟨fun _ => false, fun _ => none⟩ [] "q2"
        { message := "m" } (.error "EACCES")).ret = .ok "q2" ∧
    (sendQuery .linux "/home/u" ⟨fun _ => false, fun _ => none⟩ [] "q2"
        { message := "m" } (.error "EACCES")).registry = [] ∧
    strContains
      (spawnErrorMsg
        (engineName { message := "m" }) "EACCES"
        (resolvedBinary .linux "/home/u" ⟨fun _ => false, fun _ => none⟩
          { message := "m" }).1)
      (engineName { message := "m" }) = true :=
  ⟨(spawn_failure_async_report .linux "/home/u" ⟨fun _ => false, fun _ => none⟩
      [] "q2" { message := "m" } "EACCES").2.1,
    (spawn_failure_async_report .linux "/home/u" ⟨fun _ => false, fun _ => none⟩
      [] "q2" { message := "m" } "EACCES").2.2.2.1,
    (spawn_failure_async_report .linux "/home/u" ⟨fun _ => false, fun _ => none⟩
      [] "q2" { message := "m" } "EACCES").2.2.2.2.2.1⟩

/-! ### Binary locator totality (claude.rs:49-248) -/

theorem vscodeStep_safe (fs : FS) (d m b s : String) (best : Option String)
    (n : String) (hbest : ∀ x, best = some x → fs.pathExists x = true) :
    ∀ x, vscodeStep fs d m b s best n = some x → fs.pathExists x = true := by
  intro x hx
  unfold vscodeStep at hx
  by_cases h1 : (strStartsWith n "anthropic.claude-code-" && strContains n m) = true
  · rw [if_pos h1] at hx
    by_cases h2 : fs.pathExists (d ++ s ++ n ++ b) = true
    · rw [if_pos h2] at hx
      cases hx
      exact h2
    · rw [if_neg h2] at hx
      exact hbest x hx
  · rw [if_neg h1] at hx
    exact hbest x hx

theorem foldl_vscodeStep_safe (fs : FS) (d m b s : String) :
    ∀ (es : List String) (acc : Option String),
      (∀ x, acc = some x → fs.pathExists x = true) →
      ∀ bin, es.foldl (vscodeStep fs d m b s) acc = some bin →
        fs.pathExists bin = true := by
  intro es
  induction es with
  | nil => intro acc hacc bin h; exact hacc bin h
  | cons n t ih =>
    intro acc hacc bin h
    exact ih (vscodeStep fs d m b s acc n)
      (vscodeStep_safe fs d m b s acc n hacc) bin h

theorem vscodeScan_some_exists (fs : FS) (d m b s : String) (bin : String)
    (h : vscodeScan fs d m b s = some bin) : fs.pathExists bin = true := by
  unfold vscodeScan at h
  cases hrd : fs.readDir d with
  | none => rw [hrd] at h; cases h
  | some entries =>
    rw [hrd] at h
    exact foldl_vscodeStep_safe fs d m b s entries none (by intro x hx; cases hx) bin h

theorem foldl_vscodeStep_none (fs : FS) (d m b s : String) :
    ∀ (es : List String),
      (∀ n ∈ es,
        (strStartsWith n "anthropic.claude-code-" && strContains n m) = true →
        fs.pathExists (d ++ s ++ n ++ b) = false) →
      es.foldl (vscodeStep fs d m b s) none = none := by
  intro es
  induction es with
  | nil => intro _; rfl
  | cons n t ih =>
    intro h
    rw [List.foldl_cons]
    have hstep : vscodeStep fs d m b s none n = none := by
      unfold vscodeStep
      by_cases hc : (strStartsWith n "anthropic.claude-code-" && strContains n m) = true
      · rw [if_pos hc, h n (List.mem_cons_self n t) hc]
        simp
      · rw [if_neg hc]
    rw [hstep]
    exact ih (fun n' hn' hc' => h n' (List.mem_cons_of_mem n hn') hc')

theorem vscodeScan_none_of_candidates (fs : FS) (d m b s : String)
    (h : ∀ p ∈ vscodeCandidates fs d m b s, fs.pathExists p = false) :
    vscodeScan fs d m b s = none := by
  unfold vscodeScan
  unfold vscodeCandidates at h
  cases hrd : fs.readDir d with
  | none => rfl
  | some entries =>
    rw [hrd] at h
    refine foldl_vscodeStep_none fs d m b s entries ?_
    intro n hn hc
    exact h _ (List.mem_map.mpr ⟨n, List.mem_filter.mpr ⟨hn, hc⟩, rfl⟩)

/-- C9: the binary locator is a total pure read of the filesystem state —
for every host OS, home directory and filesystem it returns an executable
reference without any failure path (and, being a plain function of `FS`,
it creates no process): the claude result is either a path whose existence
was checked or the bare command name `"claude"`, the gemini executable is
either an existence-checked path or one of the bare names `"gemini"` /
`"node"`; and when none of that engine's prioritized installation
candidates exists — regardless of what other paths exist on the
filesystem — it returns exactly the bare command name for PATH
resolution. -/
theorem binary_locator_total (os : HostOS) (home : String) (fs : FS) :
    (fs.pathExists (findClaudeBinary os home fs) = true ∨
      findClaudeBinary os home fs = "claude") ∧
    (fs.pathExists (findGeminiBinary os home fs).1 = true ∨
      (findGeminiBinary os home fs).1 = "gemini" ∨
      (findGeminiBinary os home fs).1 = "node") ∧
    ((∀ p ∈ claudeCandidates os home fs, fs.pathExists p = false) →
      findClaudeBinary os home fs = "claude") ∧
    ((∀ p ∈ geminiCandidates os home, fs.pathExists p = false) →
      findGeminiBinary os home fs = ("gemini", [])) := by
  refine ⟨?_, ?_, ?_, ?_⟩
  · cases os <;> simp only [findClaudeBinary]
    case windows =>
      cases hscan : vscodeScan fs (home ++ "\\.vscode\\extensions") "win32"
          "\\resources\\native-binary\\claude.exe" "\\" with
      | some bin =>
        exact Or.inl (vscodeScan_some_exists fs _ _ _ _ bin hscan)
      | none =>
        split_ifs with h1
        · exact Or.inl h1
        · exact Or.inr rfl
    case macos =>
      cases hscan : vscodeScan fs (home ++ "/.vscode/extensions") "darwin"
          "/resources/native-binary/claude" "/" with
      | some bin =>
        exact Or.inl (vscodeScan_some_exists fs _ _ _ _ bin hscan)
      | none =>
        split_ifs with h1 h2 h3 h4
        · exact Or.inl h1
        · exact Or.inl h2
        · exact Or.inl h3
        · exact Or.inl h4
        · exact Or.inr rfl
    case linux =>
      cases hscan : vscodeScan fs (home ++ "/.vscode/extensions") "linux"
          "/resources/native-binary/claude" "/" with
      | some bin =>
        exact Or.inl (vscodeScan_some_exists fs _ _ _ _ bin hscan)
      | none =>
        split_ifs with h1 h2 h3 h4
        · exact Or.inl h1
        · exact Or.inl h2
        · exact Or.inl h3
        · exact Or.inl h4
        · exact Or.inr rfl
  · cases os <;> simp only [findGeminiBinary] <;> split_ifs <;>
      first
        | (left; assumption)
        | (right; left; rfl)
        | (right; right; rfl)
  · intro h
    cases os
    case windows =>
      have hscan : vscodeScan fs (home ++ "\\.vscode\\extensions") "win32"
          "\\resources\\native-binary\\claude.exe" "\\" = none :=
        vscodeScan_none_of_candidates fs _ _ _ _
          (fun p hp => h p (List.mem_append.mpr (Or.inl hp)))
      simp [findClaudeBinary, hscan,
        h (home ++ "\\AppData\\Roaming\\npm\\claude.cmd")
          (by simp [claudeCandidates])]
    case macos =>
      have hscan : vscodeScan fs (home ++ "/.vscode/extensions") "darwin"
          "/resources/native-binary/claude" "/" = none :=
        vscodeScan_none_of_candidates fs _ _ _ _
          (fun p hp => h p (List.mem_append.mpr (Or.inl hp)))
      simp [findClaudeBinary, hscan,
        h (home ++ "/.claude/local/claude") (by simp [claudeCandidates]),
        h "/opt/homebrew/bin/claude" (by simp [claudeCandidates]),
        h "/usr/local/bin/claude" (by simp [claudeCandidates]),
        h (home ++ "/.npm-global/bin/claude") (by simp [claudeCandidates])]
    case linux =>
      have hscan : vscodeScan fs (home ++ "/.vscode/extensions") "linux"
          "/resources/native-binary/claude" "/" = none :=
        vscodeScan_none_of_candidates fs _ _ _ _
          (fun p hp => h p (List.mem_append.mpr (Or.inl hp)))
      simp [findClaudeBinary, hscan,
        h (home ++ "/.claude/local/claude") (by simp [claudeCandidates]),
        h "/usr/local/bin/claude" (by simp [claudeCandidates]),
        h "/usr/bin/claude" (by simp [claudeCandidates]),
        h (home ++ "/.npm-global/bin/claude") (by simp [claudeCandidates])]
  · intro h
    cases os
    case windows =>
      simp [findGeminiBinary,
        h (home ++ "\\AppData\\Roaming\\npm\\node_modules\\@google\\gemini-cli\\dist\\index.js")
          (by simp [geminiCandidates]),
        h (home ++ "\\AppData\\Roaming\\npm\\gemini.cmd")
          (by simp [geminiCandidates])]
    case macos =>
      simp [findGeminiBinary,
        h (home ++ "/.npm-global/lib/node_modules/@google/gemini-cli/dist/index.js")
          (by simp [geminiCandidates]),
        h "/usr/local/lib/node_modules/@google/gemini-cli/dist/index.js"
          (by simp [geminiCandidates]),
        h (home ++ "/.npm-global/bin/gemini") (by simp [geminiCandidates]),
        h "/opt/homebrew/bin/gemini" (by simp [geminiCandidates]),
        h "/usr/local/bin/gemini" (by simp [geminiCandidates])]
    case linux =>
      simp [findGeminiBinary,
        h (home ++ "/.npm-global/lib/node_modules/@google/gemini-cli/dist/index.js")
          (by simp [geminiCandidates]),
        h "/usr/local/lib/node_modules/@google/gemini-cli/dist/index.js"
          (by simp [geminiCandidates]),
        h (home ++ "/.npm-global/bin/gemini") (by simp [geminiCandidates])]

theorem binary_locator_total_witness :
    findClaudeBinary .linux "/h" ⟨fun p => p == "/usr/bin/vim", fun _ => none⟩ =
      "claude" ∧
    findGeminiBinary .linux "/h" ⟨fun p => p == "/usr/bin/vim", fun _ => none⟩ =
      ("gemini", []) :=
  ⟨(binary_locator_total .linux "/h"
      ⟨fun p => p == "/usr/bin/vim", fun _ => none⟩).2.2.1 (by decide),
    (binary_locator_total .linux "/h"
      ⟨fun p => p == "/usr/bin/vim", fun _ => none⟩).2.2.2 (by decide)⟩

end ThunderClaude
